import Mathlib

/-!
Verification development for the compliance-document ingestion pipeline.

Texts are modelled as `List Char`; Python string operations (`split`,
`strip`, `lower`, substring membership, the concrete regular expressions of
the source) are embedded as executable functions over `List Char` with
ASCII semantics.  Machine floats of the source are modelled as exact
rationals (`ℚ`).
-/

set_option maxHeartbeats 1000000

namespace Compliance

/-- ASCII whitespace, as recognised by Python's `str.split()` /
`str.strip()` and the regex class `\s` on the ASCII texts this
development works with. -/
def pyIsSpace (c : Char) : Bool :=
  c = ' ' || c = '\t' || c = '\n' || c = '\r' || c = '\x0b' || c = '\x0c'

/-- Helper for Python `str.split()`: scans the text while carrying the
(reversed) non-whitespace run read so far. -/
def pyWordsAux : List Char → List Char → List (List Char)
  | cur, [] => if cur.isEmpty then [] else [cur.reverse]
  | cur, c :: rest =>
      if pyIsSpace c then
        if cur.isEmpty then pyWordsAux [] rest
        else cur.reverse :: pyWordsAux [] rest
      else pyWordsAux (c :: cur) rest

/-- Python `str.split()` with no separator: the maximal non-whitespace
runs of the text, with empty pieces dropped. -/
def pyWords (l : List Char) : List (List Char) := pyWordsAux [] l

/-- Python `str.lstrip()` (ASCII whitespace). -/
def lstripPy (l : List Char) : List Char := l.dropWhile pyIsSpace

/-- Python `str.rstrip()` (ASCII whitespace). -/
def rstripPy (l : List Char) : List Char := (l.reverse.dropWhile pyIsSpace).reverse

/-- Python `str.strip()` (ASCII whitespace). -/
def stripPy (l : List Char) : List Char := lstripPy (rstripPy l)

/-- Python `str.lower()` (ASCII letters; the indicator lists matched
case-insensitively by the source are all ASCII). -/
def pyToLower (l : List Char) : List Char := l.map Char.toLower

/-- Does `needle` occur at the head of `hay`? -/
def headMatches : List Char → List Char → Bool
  | [], _ => true
  | _ :: _, [] => false
  | a :: as, b :: bs => a = b && headMatches as bs

/-- Python substring membership `needle in hay`. -/
def containsSub (needle : List Char) : List Char → Bool
  | [] => headMatches needle []
  | c :: t => headMatches needle (c :: t) || containsSub needle t

/-- Scanner for the Python regex `<[^>]+>`: the state is `none` outside
a candidate match, or `some n` inside one with `n` body characters read
since the opening `<`.  A `>` closes the candidate (a match iff the body
is non-empty, as `[^>]+` requires at least one character); any other
character extends the body. -/
def countTagsAux : Option Nat → List Char → Nat
  | none, [] => 0
  | some _, [] => 0
  | none, c :: rest =>
      if c = '<' then countTagsAux (some 0) rest else countTagsAux none rest
  | some n, c :: rest =>
      if c = '>' then (if 0 < n then 1 else 0) + countTagsAux none rest
      else countTagsAux (some (n + 1)) rest

/-- Number of non-overlapping matches of the Python regex `<[^>]+>`
(an HTML tag), scanned left to right as `re.findall` does. -/
def countTags (l : List Char) : Nat := countTagsAux none l

/-- ASCII letter (regex class `[a-zA-Z]`). -/
def pyIsAsciiAlpha (c : Char) : Bool :=
  ('a' ≤ c && c ≤ 'z') || ('A' ≤ c && c ≤ 'Z')

/-- Scanner for the Python regex `&[a-zA-Z]+;`: state `some n` means a
candidate entity with `n` letters read since the `&`.  A `;` closes the
candidate (a match iff at least one letter); a non-letter aborts it
(restarting a candidate if that character is itself `&`). -/
def countEntitiesAux : Option Nat → List Char → Nat
  | none, [] => 0
  | some _, [] => 0
  | none, c :: rest =>
      if c = '&' then countEntitiesAux (some 0) rest else countEntitiesAux none rest
  | some n, c :: rest =>
      if pyIsAsciiAlpha c then countEntitiesAux (some (n + 1)) rest
      else if c = ';' then (if 0 < n then 1 else 0) + countEntitiesAux none rest
      else countEntitiesAux (if c = '&' then some 0 else none) rest

/-- Number of non-overlapping matches of the Python regex `&[a-zA-Z]+;`
(an HTML entity), scanned left to right as `re.findall` does. -/
def countEntities (l : List Char) : Nat := countEntitiesAux none l

/-- Sentence-terminator character (regex class `[.!?]`). -/
def isSentEnd (c : Char) : Bool := c = '.' || c = '!' || c = '?'

/-- Scanner for the Python regex `[.!?]+`: the flag records whether the
previous character was a sentence terminator, so each maximal run is
counted once, at its first character. -/
def countSentRunsAux : Bool → List Char → Nat
  | _, [] => 0
  | inRun, c :: rest =>
      if isSentEnd c then (if inRun then 0 else 1) + countSentRunsAux true rest
      else countSentRunsAux false rest

/-- Number of matches of the Python regex `[.!?]+`: maximal runs of
sentence terminators. -/
def countSentRuns (l : List Char) : Nat := countSentRunsAux false l

/-! ### ContentQualityService (src/ingestion/services/content_quality_service.py)

`analyze_content_quality` computes counts of markup / navigation /
compliance indicators over the chunk text and combines them into a
0-100 score with an obvious-noise override.  The source returns the
score rounded to one decimal for display; the flag computations compare
the unrounded value, which is what is modelled here (exact `ℚ`). -/

/-- Navigation/UI indicator list of the source (matched case-insensitively,
one count per indicator present). -/
def navIndicators : List (List Char) :=
  ["menu", "navigation", "breadcrumb", "skip to content", "header", "footer",
   "search", "login", "sign in", "home page", "privacy policy", "cookie",
   "social media", "facebook", "twitter", "instagram", "youtube", "linkedin",
   "site-header", "mobile-menu", "hamburger", "overlay", "dropdown",
   "screen-reader-text", "aria-hidden", "role=", "class=", "id=",
   "open in new window", "external link", "previous", "next",
   "share", "follow us", "contact us", "about us", "subscribe"].map String.toList

/-- White-House-specific navigation indicator list (matched case-sensitively). -/
def whNavIndicators : List (List Char) :=
  ["The White House", "Administration", "Briefing Room", "President Biden",
   "Vice President Harris", "First Lady", "Second Gentleman", "Cabinet",
   "Executive Offices", "The Record", "The Issues", "The Moments", "The Story",
   "EspaÃ±ol", "Copyright Policy", "Accessibility Statement"].map String.toList

/-- Legal/compliance content term list (matched case-insensitively). -/
def complianceTermList : List (List Char) :=
  ["section", "article", "regulation", "compliance", "shall", "requirements",
   "standards", "framework", "governance", "privacy", "data protection",
   "artificial intelligence", "AI", "executive order", "whereas", "therefore",
   "pursuant to", "authority vested", "hereby ordered", "implementation",
   "federal", "administration", "policy", "principles", "directive"].map String.toList

/-- Document structure indicator list (matched case-insensitively). -/
def structureIndicatorList : List (List Char) :=
  ["section 1", "section 2", "section 3", "subsection", "paragraph",
   "chapter", "part", "article", "sec.", "(a)", "(b)", "(c)",
   "purpose", "definitions", "scope", "effective date"].map String.toList

/-- `sum(1 for indicator in nav_indicators if indicator.lower() in chunk_text.lower())`. -/
def navScore (text : List Char) : Nat :=
  (navIndicators.filter (fun i => containsSub (pyToLower i) (pyToLower text))).length

/-- `sum(1 for indicator in wh_nav_indicators if indicator in chunk_text)`. -/
def whNavScore (text : List Char) : Nat :=
  (whNavIndicators.filter (fun i => containsSub i text)).length

/-- `sum(1 for term in compliance_terms if term.lower() in chunk_text.lower())`. -/
def complianceScore (text : List Char) : Nat :=
  (complianceTermList.filter (fun i => containsSub (pyToLower i) (pyToLower text))).length

/-- `sum(1 for indicator in structure_indicators if indicator.lower() in chunk_text.lower())`. -/
def structureScore (text : List Char) : Nat :=
  (structureIndicatorList.filter (fun i => containsSub (pyToLower i) (pyToLower text))).length

/-- `sum(len(word) for word in chunk_text.split()) / max(len(chunk_text.split()), 1)`. -/
def avgWordLength (text : List Char) : ℚ :=
  (((pyWords text).map List.length).sum : ℚ) / ((max (pyWords text).length 1 : ℕ) : ℚ)

/-- Python `max(a, b)` on rationals (kernel-reducible conditional form). -/
def pyMax (a b : ℚ) : ℚ := if b > a then b else a

/-- Python `min(a, b)` on rationals (kernel-reducible conditional form). -/
def pyMin (a b : ℚ) : ℚ := if b < a then b else a

/-- The weighted sum of the indicator counts, in the order the source
writes it. -/
def qualitySum (text : List Char) : ℚ :=
  (complianceScore text : ℚ) * 15 +
  (structureScore text : ℚ) * 10 +
  (countSentRuns text : ℚ) * (3/2) +
  (avgWordLength text - 3) * 3 +
  -(countTags text : ℚ) * 5 +
  -(countEntities text : ℚ) * 3 +
  -(navScore text : ℚ) * 8 +
  -(whNavScore text : ℚ) * 10

/-- The pre-override quality score: the weighted sum clamped to
[0, 100], exactly as the source computes it (`max(0, min(100, ...))`). -/
def preQualityScore (text : List Char) : ℚ :=
  pyMax 0 (pyMin 100 (qualitySum text))

/-- The `is_obvious_noise` condition of the source. -/
def obviousNoiseCond (text : List Char) : Bool :=
  decide (countTags text > 50) ||
  decide (navScore text > 5) ||
  decide (whNavScore text > 3) ||
  decide (text.count '<' > 20) ||
  containsSub "doctype html".toList (pyToLower text) ||
  containsSub "svg xmlns".toList (pyToLower text) ||
  containsSub "viewport".toList (pyToLower text)

/-- The part of the report of `analyze_content_quality` that the claims
are about (the source additionally echoes the raw counts and a rounded
copy of the score). -/
structure QualityReport where
  qualityScore : ℚ
  htmlTags : Nat
  htmlEntities : Nat
  navigationIndicators : Nat
  whNavigationIndicators : Nat
  complianceTerms : Nat
  structureIndicators : Nat
  sentences : Nat
  isLikelyContent : Bool
  isLikelyNoise : Bool
  isObviousNavigation : Bool
  deriving Repr, DecidableEq

/-- `ContentQualityService.analyze_content_quality`. -/
def analyzeContentQuality (chunkText : List Char) : QualityReport :=
  let score0 := preQualityScore chunkText
  let noise := obviousNoiseCond chunkText
  let score := if noise then pyMin score0 10 else score0
  { qualityScore := score
    htmlTags := countTags chunkText
    htmlEntities := countEntities chunkText
    navigationIndicators := navScore chunkText
    whNavigationIndicators := whNavScore chunkText
    complianceTerms := complianceScore chunkText
    structureIndicators := structureScore chunkText
    sentences := countSentRuns chunkText
    isLikelyContent := decide (score > 40) && !noise
    isLikelyNoise := decide (score < 20) || noise
    isObviousNavigation := noise }

/-- The score formula exactly as claim C1 words it: (compliance-term
count × 15) + (structure-indicator count × 10) + (sentence-terminator-run
count × 1.5) + ((average word length − 3) × 3) − (HTML tag count × 5) −
(HTML entity count × 3) − (navigation-keyword count × 8) −
(site-specific navigation count × 10), clamped to [0, 100]. -/
def claimSumC1 (text : List Char) : ℚ :=
  (complianceScore text : ℚ) * 15 + (structureScore text : ℚ) * 10 +
  (countSentRuns text : ℚ) * (3/2) + (avgWordLength text - 3) * 3 -
  (countTags text : ℚ) * 5 - (countEntities text : ℚ) * 3 -
  (navScore text : ℚ) * 8 - (whNavScore text : ℚ) * 10

/-- The clamp of `claimSumC1` to [0, 100], per the claim's wording. -/
def claimScoreC1 (text : List Char) : ℚ :=
  pyMax 0 (pyMin 100 (claimSumC1 text))

/-- A text for which the quality scorer's obvious-noise override fires
while the claimed clamped sum is large. -/
def noisyHighSumText : List Char :=
  "viewport shall framework governance regulation compliance".toList

/-! ### ContentProcessor (src/ingestion/processors/content_processor.py)

`_clean_text` normalizes whitespace; `_create_chunks` splits the cleaned
text on `'. '` and accumulates sentences into chunks of at most
`max_words_per_chunk` words (default 500). -/

/-- Python `' '.join(words)`. -/
def joinSpace : List (List Char) → List Char
  | [] => []
  | [w] => w
  | w :: rest => w ++ ' ' :: joinSpace rest

/-- `ContentProcessor._clean_text`: `' '.join(text_content.split())`. -/
def cleanText (textContent : List Char) : List Char :=
  joinSpace (pyWords textContent)

/-- Python `text.split('. ')` (left-to-right, non-overlapping): returns
the first piece and the list of remaining pieces (the result is always
non-empty, as in Python). -/
def splitDotSpace : List Char → List Char × List (List Char)
  | [] => ([], [])
  | '.' :: ' ' :: rest =>
      let r := splitDotSpace rest
      ([], r.1 :: r.2)
  | c :: rest =>
      let r := splitDotSpace rest
      (c :: r.1, r.2)

/-- The sentence list `cleaned_text.split('. ')` of `_create_chunks`. -/
def sentencesOf (cleaned : List Char) : List (List Char) :=
  (splitDotSpace cleaned).1 :: (splitDotSpace cleaned).2

/-- Python `'. '.join(pieces)` (inverse of `splitDotSpace`). -/
def joinDotSpace : List (List Char) → List Char
  | [] => []
  | [s] => s
  | s :: rest => s ++ '.' :: ' ' :: joinDotSpace rest

/-- Python `f"{n:03d}"`: decimal digits left-padded with `0` to width 3. -/
def pad3 (n : Nat) : List Char :=
  let ds := Nat.toDigits 10 n
  List.replicate (3 - ds.length) '0' ++ ds

/-- A content chunk as built by `ContentProcessor._create_chunk`. -/
structure Chunk where
  chunkId : List Char
  content : List Char
  chunkIndex : Nat
  chunkType : List Char
  wordCount : Nat
  charCount : Nat
  deriving Repr, DecidableEq

/-- `ContentProcessor._create_chunk`: strips the accumulated content and
fills in the chunk record, with id `{doc_id}_chunk_{chunk_index:03d}`. -/
def createChunk (content : List Char) (docId : List Char) (chunkIndex : Nat) : Chunk :=
  let c := stripPy content
  { chunkId := docId ++ "_chunk_".toList ++ pad3 chunkIndex
    content := c
    chunkIndex := chunkIndex
    chunkType := "paragraph".toList
    wordCount := (pyWords c).length
    charCount := c.length }

/-- The sentence-accumulation loop of `ContentProcessor._create_chunks`:
a chunk is emitted when appending the next sentence would exceed
`max_words_per_chunk` words and the current chunk is non-empty; the
final chunk is emitted if its stripped content is non-empty. -/
def createChunksLoop (maxWords : Nat) (docId : List Char) :
    List (List Char) → List Char → Nat → List Chunk
  | [], currentChunk, chunkIndex =>
      if (stripPy currentChunk).isEmpty then []
      else [createChunk currentChunk docId chunkIndex]
  | sentence :: rest, currentChunk, chunkIndex =>
      let testChunk := currentChunk ++ sentence ++ '.' :: ' ' :: []
      if (pyWords testChunk).length > maxWords && !currentChunk.isEmpty then
        createChunk currentChunk docId chunkIndex ::
          createChunksLoop maxWords docId rest (sentence ++ '.' :: ' ' :: []) (chunkIndex + 1)
      else
        createChunksLoop maxWords docId rest testChunk chunkIndex

/-- `ContentProcessor._create_chunks`. -/
def createChunks (maxWords : Nat) (cleanedText docId : List Char) : List Chunk :=
  createChunksLoop maxWords docId (sentencesOf cleanedText) [] 0

/-- Chunking as invoked by `process_and_save_content`: clean, then chunk. -/
def processChunks (maxWords : Nat) (textContent docId : List Char) : List Chunk :=
  createChunks maxWords (cleanText textContent) docId

/-- All whitespace removed (used to state whitespace-insensitive
comparison of texts). -/
def dropSpaces (l : List Char) : List Char := l.filter (fun c => !pyIsSpace c)

/-- Head character is not whitespace (vacuously true for the empty
list). -/
def headNotSpace : List Char → Prop
  | [] => True
  | c :: _ => pyIsSpace c = false

/-- No two consecutive whitespace characters. -/
def noTwoSpaces (l : List Char) : Prop :=
  l.Chain' (fun a b => ¬(pyIsSpace a = true ∧ pyIsSpace b = true))

/-- Concatenation of the chunk contents in index order with a single
space at each chunk boundary. -/
def joinChunkContents (cs : List Chunk) : List Char :=
  joinSpace (cs.map Chunk.content)

/-- `'. '`-terminated glue of the remaining sentence pieces, with the
final `' '` removed: the shape taken by the concatenated chunk contents
of the tail of the sentence list. -/
def tailGlue : List (List Char) → List Char
  | [] => ['.']
  | s :: rest => '.' :: ' ' :: (s ++ tailGlue rest)

/-! ### BaseFetcher (src/ingestion/fetchers/base_fetcher.py)

`_fetch_url` is decorated with tenacity
`@retry(stop=stop_after_attempt(3), wait=wait_exponential(multiplier=1, min=4, max=10))`.
Tenacity re-runs the wrapped call only when it raises; the body of
`_fetch_url` wraps its whole logic in `try/except Exception` and returns
a failed `FetchResult` instead of raising.  The wait schedule is
irrelevant to the model because it only applies between re-runs. -/

/-- Outcome the HTTP client produces for one GET attempt: a raised
exception (network error, timeout, connection reset) or a response with
a status code. -/
inductive HttpAttempt where
  | exc
  | response (statusCode : Nat)
  deriving Repr, DecidableEq

/-- The fields of `FetchResult` the retry claims are about (content,
content type, timing and size are carried opaquely by the source and do
not influence control flow). -/
structure FetchResultM where
  success : Bool
  statusCode : Option Nat
  errorPresent : Bool
  deriving Repr, DecidableEq

/-- One execution of the body of `_fetch_url` (lines 70-135):
`raise_for_status` raises `HTTPStatusError` for 4xx/5xx responses
(status ≥ 400), and the enclosing `except Exception` converts every
exception — network error or HTTP error alike — into a returned
`FetchResult(success=False, error_message=...)`; hence the body never
raises. -/
def fetchUrlBody : HttpAttempt → FetchResultM
  | .exc => { success := false, statusCode := none, errorPresent := true }
  | .response code =>
      if code ≥ 400 then { success := false, statusCode := none, errorPresent := true }
      else { success := true, statusCode := some code, errorPresent := false }

/-- Tenacity's retry loop with `stop_after_attempt` semantics: run the
wrapped call; if it returns, stop and return its value; if it raises,
re-run (after the backoff wait) unless the attempt cap is reached, in
which case the exception propagates.  The result is paired with the
number of attempts performed. -/
def tenacityRun (body : Nat → Except Unit FetchResultM) :
    Nat → Nat → Except Unit (FetchResultM × Nat)
  | 0, _ => .error ()
  | rem + 1, attemptIdx =>
      match body attemptIdx with
      | .ok r => .ok (r, attemptIdx + 1)
      | .error e => if rem = 0 then .error e else tenacityRun body rem (attemptIdx + 1)

/-- `_fetch_url` as decorated: the tenacity wrapper (cap 3 attempts)
around the never-raising body; `attempts n` is the HTTP outcome the
network would produce for the n-th GET (0-based). -/
def fetchUrl (attempts : Nat → HttpAttempt) : Except Unit (FetchResultM × Nat) :=
  tenacityRun (fun i => .ok (fetchUrlBody (attempts i))) 3 0

/-! ### BaseParser (src/ingestion/parsers/base_parser.py)

`_clean_text` applies three `re.sub` passes and a strip;
`_calculate_quality_score` turns text statistics into a 0-1 float. -/

/-- ASCII digit. -/
def pyIsDigit (c : Char) : Bool := '0' ≤ c && c ≤ '9'

/-- ASCII alphanumeric (Python `str.isalnum` restricted to the ASCII
texts of this development). -/
def pyIsAlnum (c : Char) : Bool := pyIsAsciiAlpha c || pyIsDigit c

/-- One maximal whitespace run, rewritten per the regex
`re.sub(r'\n\s*\n\s*\n', '\n\n', ...)`: a match starts at the first
newline of the run and — by greedy backtracking — extends to the last
newline of the run, so a run containing at least 3 newlines becomes its
leading non-newline whitespace, `\n\n`, and its trailing whitespace
after the last newline; any other run is unchanged. -/
def emitNlRun (run : List Char) : List Char :=
  if run.count '\n' ≥ 3 then
    run.takeWhile (fun c => c ≠ '\n') ++ '\n' :: '\n' ::
      (run.reverse.takeWhile (fun c => c ≠ '\n')).reverse
  else run

/-- Scanner for `re.sub(r'\n\s*\n\s*\n', '\n\n', text)`: accumulates the
current maximal whitespace run (reversed) and rewrites it with
`emitNlRun` when it ends.  Matches never span non-whitespace, so
processing run by run is equivalent to the regex scan. -/
def collapseNlAux : List Char → List Char → List Char
  | run, [] => emitNlRun run.reverse
  | run, c :: rest =>
      if pyIsSpace c then collapseNlAux (c :: run) rest
      else emitNlRun run.reverse ++ c :: collapseNlAux [] rest

/-- `re.sub(r'\n\s*\n\s*\n', '\n\n', text)`. -/
def collapseNl (l : List Char) : List Char := collapseNlAux [] l

/-- Scanner for `re.sub(r' +', ' ', text)`: the flag records whether the
previous character was a space. -/
def collapseSpacesAux : Bool → List Char → List Char
  | _, [] => []
  | prev, c :: rest =>
      if c = ' ' then (if prev then [] else [' ']) ++ collapseSpacesAux true rest
      else c :: collapseSpacesAux false rest

/-- `re.sub(r' +', ' ', text)`. -/
def collapseSpaces (l : List Char) : List Char := collapseSpacesAux false l

/-- Character class kept by `re.sub(r'[^\w\s\.,!?;:()\[\]{}"\'-]', '', ...)`. -/
def keepChar (c : Char) : Bool :=
  pyIsAlnum c || c = '_' || pyIsSpace c ||
    ['.', ',', '!', '?', ';', ':', '(', ')', '[', ']', '\x7b', '\x7d',
     '"', '\'', '-'].contains c

/-- `BaseParser._clean_text` (lines 149-162). -/
def cleanTextParser (text : List Char) : List Char :=
  if text.isEmpty then []
  else stripPy ((collapseSpaces (collapseNl text)).filter keepChar)

/-- The fixed `method_scores` table of `_calculate_quality_score`
(`.get(extraction_method, 0.5)`). -/
def methodScore (m : List Char) : ℚ :=
  if m = "direct_text".toList then 1
  else if m = "html_parsing".toList then 9/10
  else if m = "pdf_text".toList then 4/5
  else if m = "ocr".toList then 3/5
  else if m = "fallback".toList then 2/5
  else 1/2

/-- `BaseParser._calculate_quality_score` (lines 112-147).
`len(text.split('\n'))` equals newline count + 1. -/
def calcQualityScore (text : List Char) (extractionMethod : List Char) : ℚ :=
  if text.isEmpty then 0
  else
    let s1 : ℚ := 1
    let s2 := if text.length < 100 then s1 * (1/2) else s1
    let s3 := if text.count '\n' + 1 > 10 then s2 * (11/10) else s2
    let specialCount := (text.filter (fun c => !pyIsAlnum c && !pyIsSpace c)).length
    let s4 := if (specialCount : ℚ) / (text.length : ℚ) > 3/10 then s3 * (7/10) else s3
    pyMin (s4 * methodScore extractionMethod) 1

/-! ### Parse results and the DocumentContent validator
(src/ingestion/parsers/base_parser.py, src/ingestion/models/document.py) -/

/-- `DocumentContent` restricted to the field the claims are about. -/
structure DocumentContentM where
  rawText : List Char
  deriving Repr, DecidableEq

/-- Constructing a `DocumentContent`: the pydantic validator
`validate_raw_text` raises `ValueError("Raw text cannot be empty")` when
the stripped raw text is empty (lines 66-70). -/
def mkDocumentContent (rawText : List Char) : Except Unit DocumentContentM :=
  if (stripPy rawText).isEmpty then .error () else .ok ⟨rawText⟩

/-- The fields of `ParseResult` the claims are about (timings and
structured sections/links/tables are carried opaquely). -/
structure ParseResultM where
  success : Bool
  content : Option DocumentContentM
  qualityScore : Option ℚ
  extractionMethod : List Char
  errorPresent : Bool
  deriving Repr, DecidableEq

/-- A failed `ParseResult` with an error message. -/
def failResult (method : List Char) : ParseResultM :=
  { success := false, content := none, qualityScore := none,
    extractionMethod := method, errorPresent := true }

/-- A successful `ParseResult` carrying content. -/
def okResult (c : DocumentContentM) (method : List Char) : ParseResultM :=
  { success := true, content := some c, qualityScore := none,
    extractionMethod := method, errorPresent := false }

/-- The extracted plain text of a parse result (empty when no content). -/
def extractedText (r : ParseResultM) : List Char :=
  match r.content with
  | some c => c.rawText
  | none => []

/-! ### HTMLParser (src/ingestion/parsers/html_parser.py) -/

/-- What the external HTML libraries would return for the document at
hand: `trafilatura.extract` (None or a string) and BeautifulSoup's
`soup.get_text()` after script/style removal. -/
structure HtmlEnv where
  trafExtract : Option (List Char)
  soupText : List Char
  deriving Repr, DecidableEq

/-- `HTMLParser._parse_with_trafilatura` (lines 85-146): an empty or
absent extraction returns a failed result; otherwise the text is
cleaned, and the `DocumentContent` validator's `ValueError` on
whitespace-only text is caught by the helper's `except`, yielding a
failed result. -/
def parseWithTrafilatura (env : HtmlEnv) : ParseResultM :=
  match env.trafExtract with
  | none => failResult "trafilatura".toList
  | some extracted =>
      if extracted.isEmpty then failResult "trafilatura".toList
      else
        match mkDocumentContent (cleanTextParser extracted) with
        | .error _ => failResult "trafilatura".toList
        | .ok c => okResult c "trafilatura".toList

/-- `HTMLParser._parse_with_beautifulsoup` (lines 148-204): the soup
text is cleaned; the `DocumentContent` validator's `ValueError` is
caught by the helper's `except`, yielding a failed result. -/
def parseWithBeautifulSoup (env : HtmlEnv) : ParseResultM :=
  match mkDocumentContent (cleanTextParser env.soupText) with
  | .error _ => failResult "beautifulsoup".toList
  | .ok c => okResult c "beautifulsoup".toList

/-- `HTMLParser.parse` (lines 24-83): trafilatura first; if its quality
is below 0.6, BeautifulSoup is tried and the higher-scoring result kept;
if trafilatura fails, BeautifulSoup alone; if both fail, a
`html_failed` failure result.  The body never raises: each helper
catches its own exceptions. -/
def htmlParse (env : HtmlEnv) : ParseResultM :=
  let result := parseWithTrafilatura env
  if result.success && result.content.isSome then
    let q := calcQualityScore (extractedText result) "html_parsing".toList
    if q < 3/5 then
      let bs := parseWithBeautifulSoup env
      if bs.success && bs.content.isSome then
        let bq := calcQualityScore (extractedText bs) "html_parsing".toList
        if bq > q then { bs with qualityScore := some bq }
        else { result with qualityScore := some q }
      else { result with qualityScore := some q }
    else { result with qualityScore := some q }
  else
    let r2 := parseWithBeautifulSoup env
    if r2.success then
      let q2 := calcQualityScore (extractedText r2) "html_parsing".toList
      { r2 with qualityScore := some q2 }
    else failResult "html_failed".toList

/-! ### PDFParser and OCRParser (src/ingestion/parsers/pdf_parser.py,
src/ingestion/parsers/ocr_fallback.py)

The page-extraction loops are calls into PyMuPDF / pdfplumber /
pytesseract; the text each library would accumulate for the document at
hand is the environment.  `none` models the library call raising (each
helper catches it and returns a failed result). -/

structure PdfEnv where
  pymupdfText : Option (List Char)
  pdfplumberText : Option (List Char)
  ocrText : Option (List Char)
  ocrEnabled : Bool
  deriving Repr, DecidableEq

/-- `PDFParser._parse_with_pymupdf` (lines 86-165): accumulated page
text is cleaned; the `DocumentContent` validator's `ValueError` on
whitespace-only text (e.g. a scanned PDF with no embedded text) is
caught by the helper's `except`, yielding a failed result. -/
def parseWithPymupdf (env : PdfEnv) : ParseResultM :=
  match env.pymupdfText with
  | none => failResult "pymupdf".toList
  | some t =>
      match mkDocumentContent (cleanTextParser t) with
      | .error _ => failResult "pymupdf".toList
      | .ok c => okResult c "pymupdf".toList

/-- `PDFParser._parse_with_pdfplumber` (lines 167-233), same shape. -/
def parseWithPdfplumber (env : PdfEnv) : ParseResultM :=
  match env.pdfplumberText with
  | none => failResult "pdfplumber".toList
  | some t =>
      match mkDocumentContent (cleanTextParser t) with
      | .error _ => failResult "pdfplumber".toList
      | .ok c => okResult c "pdfplumber".toList

/-- `PDFParser.parse` (lines 25-84), paired with whether the pdfplumber
fallback was invoked: PyMuPDF first; if its quality score (method
`pdf_text`) is below 0.5, pdfplumber is tried and the higher-scoring
result kept; if PyMuPDF fails, pdfplumber alone; if both fail, a
`pdf_failed` failure result. -/
def pdfParse (env : PdfEnv) : ParseResultM × Bool :=
  let result := parseWithPymupdf env
  if result.success && result.content.isSome then
    let q := calcQualityScore (extractedText result) "pdf_text".toList
    if q < 1/2 then
      let pr := parseWithPdfplumber env
      if pr.success && pr.content.isSome then
        let pq := calcQualityScore (extractedText pr) "pdf_text".toList
        if pq > q then ({ pr with qualityScore := some pq }, true)
        else ({ result with qualityScore := some q }, true)
      else ({ result with qualityScore := some q }, true)
    else ({ result with qualityScore := some q }, false)
  else
    let r2 := parseWithPdfplumber env
    if r2.success then
      let q2 := calcQualityScore (extractedText r2) "pdf_text".toList
      ({ r2 with qualityScore := some q2 }, true)
    else (failResult "pdf_failed".toList, true)

/-- `OCRParser.parse` (ocr_fallback.py lines 39-179): PDF content is
rasterized page by page (capped at 10 pages) and OCRed; images are OCRed
directly; the accumulated OCR text is cleaned and validated like the
other helpers. -/
def ocrParse (env : PdfEnv) (contentType : List Char) : ParseResultM :=
  let method := if containsSub "pdf".toList (pyToLower contentType)
    then "ocr_pdf".toList else "ocr_image".toList
  match env.ocrText with
  | none => failResult method
  | some t =>
      match mkDocumentContent (cleanTextParser t) with
      | .error _ => failResult method
      | .ok c => okResult c method

/-! ### IngestionEngine._parse_document (src/ingestion/services/ingestion_engine.py,
lines 285-324): try each parser of `[PDFParser(), HTMLParser(),
OCRParser()]` whose `can_parse` accepts the content type / extension,
returning the first successful result. -/

/-- `PDFParser.can_parse`. -/
def pdfCanParse (contentType ext : List Char) : Bool :=
  containsSub "pdf".toList (pyToLower contentType) || pyToLower ext = "pdf".toList

/-- `HTMLParser.can_parse`. -/
def htmlCanParse (contentType ext : List Char) : Bool :=
  containsSub "html".toList (pyToLower contentType) ||
    (pyToLower ext = "html".toList || pyToLower ext = "htm".toList)

/-- `OCRParser.can_parse` (gated on `settings.ocr_enabled`). -/
def ocrCanParse (ocrEnabled : Bool) (contentType ext : List Char) : Bool :=
  ocrEnabled &&
    (containsSub "pdf".toList (pyToLower contentType) ||
     containsSub "image".toList (pyToLower contentType) ||
     ["pdf".toList, "png".toList, "jpg".toList, "jpeg".toList,
      "tiff".toList, "bmp".toList].contains (pyToLower ext))

/-- Which extraction strategies ran during `_parse_document`. -/
structure ParseFlags where
  pdfParserRan : Bool
  pdfplumberInvoked : Bool
  htmlParserRan : Bool
  ocrInvoked : Bool
  deriving Repr, DecidableEq

/-- The `ParseResult` returned when no parser succeeded. -/
def noParserResult : ParseResultM :=
  { success := false, content := none, qualityScore := none,
    extractionMethod := "no_parser".toList, errorPresent := true }

/-- `IngestionEngine._parse_document`, instrumented with which parsers
ran: the parser list `[PDFParser, HTMLParser, OCRParser]` is scanned in
order, each applicable parser is run, and the first successful result is
returned. -/
def parseDocument (env : PdfEnv) (henv : HtmlEnv) (contentType ext : List Char) :
    ParseResultM × ParseFlags :=
  let afterHtml : Bool → Bool → Bool → ParseResultM × ParseFlags :=
    fun pdfRan plumber htmlRan =>
      if ocrCanParse env.ocrEnabled contentType ext then
        let r := ocrParse env contentType
        if r.success then (r, ⟨pdfRan, plumber, htmlRan, true⟩)
        else (noParserResult, ⟨pdfRan, plumber, htmlRan, true⟩)
      else (noParserResult, ⟨pdfRan, plumber, htmlRan, false⟩)
  let afterPdf : Bool → Bool → ParseResultM × ParseFlags :=
    fun pdfRan plumber =>
      if htmlCanParse contentType ext then
        let r := htmlParse henv
        if r.success then (r, ⟨pdfRan, plumber, true, false⟩)
        else afterHtml pdfRan plumber true
      else afterHtml pdfRan plumber false
  if pdfCanParse contentType ext then
    let pr := pdfParse env
    if pr.1.success then (pr.1, ⟨true, pr.2, false, false⟩)
    else afterPdf true pr.2
  else afterPdf false false

/-! ### Job and task models (src/ingestion/models/ingestion.py) -/

/-- `JobStatus` (lines 11-18).  Note there is no SKIPPED member. -/
inductive JobStatusM where
  | pending
  | running
  | completed
  | failed
  | cancelled
  | retrying
  deriving Repr, DecidableEq

/-- The string value of each `JobStatus` member (`use_enum_values`
serialises the member to this string). -/
def JobStatusM.value : JobStatusM → List Char
  | .pending => "pending".toList
  | .running => "running".toList
  | .completed => "completed".toList
  | .failed => "failed".toList
  | .cancelled => "cancelled".toList
  | .retrying => "retrying".toList

/-- The `artifacts` dict a task result can carry: empty (default), the
duplicate marker `{"duplicate_of": str(existing_doc_id)}`, or the
processed-document dict whose `document_status` entry is modelled and
whose remaining entries (file paths, parse quality, content length) are
opaque external values. -/
inductive ArtifactsM where
  | empty
  | duplicateOf (docId : List Char)
  | processed (documentStatus : List Char)
  deriving Repr, DecidableEq

/-- The fields of `TaskResult` the claims are about. -/
structure TaskResultM where
  status : JobStatusM
  success : Bool
  errorPresent : Bool
  artifacts : ArtifactsM
  hasDocumentId : Bool
  deriving Repr, DecidableEq

/-! ### IngestionEngine._process_document (src/ingestion/services/ingestion_engine.py,
lines 156-283). -/

/-- The per-document environment: the fetch outcome, the value the
dedup lookup returned, and the outcome `_parse_document` would produce.
Metadata construction, SHA-256 hashing and the storage writes are
external effects that do not influence the control flow modelled by the
claims (the writes are assumed not to raise). -/
structure ProcEnv where
  fetchSuccess : Bool
  fetchErrorPresent : Bool
  dedupHit : Option (List Char)
  parseResult : ParseResultM
  deriving Repr, DecidableEq

/-- `_process_document`, paired with whether `_parse_document` was
invoked: a failed fetch yields a FAILED task; a dedup hit yields a
COMPLETED task with success=True and `artifacts.duplicate_of`, returning
before parsing; otherwise the document is parsed, its status becomes
PROCESSED or FAILED, and the task completes with success =
(status == PROCESSED). -/
def processDocument (env : ProcEnv) : TaskResultM × Bool :=
  if !env.fetchSuccess then
    ({ status := .failed, success := false, errorPresent := env.fetchErrorPresent,
       artifacts := .empty, hasDocumentId := false }, false)
  else
    match env.dedupHit with
    | some existingId =>
        ({ status := .completed, success := true, errorPresent := false,
           artifacts := .duplicateOf existingId, hasDocumentId := false }, false)
    | none =>
        let pr := env.parseResult
        let docProcessed := pr.success && pr.content.isSome
        ({ status := .completed, success := docProcessed, errorPresent := false,
           artifacts := .processed
             (if docProcessed then "processed".toList else "failed".toList),
           hasDocumentId := true }, true)

/-! ### IngestionEngine.run_ingestion_job source loop
(src/ingestion/services/ingestion_engine.py, lines 58-85). -/

/-- The registry fields `run_ingestion_job` consults, plus an opaque
identity so that distinct sources can be told apart. -/
structure SourceM where
  isActive : Bool
  tag : Nat
  deriving Repr, DecidableEq

/-- The source loop of `run_ingestion_job` (lines 58-72): an unknown
source id is logged and skipped with `continue`, an inactive source is
skipped, and each remaining source contributes the task results of
`_process_source`. -/
def processJobSources (lookup : Nat → Option SourceM)
    (procSource : SourceM → List TaskResultM) : List Nat → List TaskResultM
  | [] => []
  | sid :: rest =>
      match lookup sid with
      | none => processJobSources lookup procSource rest
      | some s =>
          if !s.isActive then processJobSources lookup procSource rest
          else procSource s ++ processJobSources lookup procSource rest

/-- The job status computed from the task results (lines 75-85). -/
def jobFinalStatus (taskResults : List TaskResultM) : JobStatusM :=
  let failedTasks := (taskResults.filter (fun r => !r.success)).length
  let successfulTasks := (taskResults.filter (fun r => r.success)).length
  if failedTasks = 0 then .completed
  else if successfulTasks > 0 then .completed
  else .failed

/-! ### StorageManager.check_duplicate (src/ingestion/core/storage.py,
lines 165-196). -/

/-- A persisted metadata record as read back from a source's metadata
directory (`file_hash` and `doc_id` fields). -/
structure MetaRec where
  fileHash : List Char
  docId : List Char
  deriving Repr, DecidableEq

/-- `StorageManager.check_duplicate`: `None` immediately when
`settings.enable_deduplication` is off; otherwise the first metadata
record of the source scope whose `file_hash` equals the content hash
(records are the parsed YAML files of `metadata_dir/source_name`; a
missing directory is the empty record list). -/
def checkDuplicate (enableDedup : Bool) (records : List MetaRec)
    (contentHash : List Char) : Option (List Char) :=
  if !enableDedup then none
  else (records.find? (fun r => r.fileHash = contentHash)).map MetaRec.docId

/-! ## Theorems -/

/-- C2: the claim is contradicted by the code, whose own `@retry`
decorator declares 3 attempts: because the body of `_fetch_url` catches
every exception and returns a failed `FetchResult`, tenacity sees a
normal return and never retries.  Every fetch — including an endpoint
answering HTTP 500 on every attempt — performs exactly one GET, and the
three-consecutive-500 scenario returns success=false after 1 attempt,
not 3. -/
theorem c2_fetch_retry_code_bug :
    (∀ attempts : Nat → HttpAttempt,
      fetchUrl attempts = .ok (fetchUrlBody (attempts 0), 1)) ∧
    fetchUrl (fun _ => HttpAttempt.response 500) =
      .ok ({ success := false, statusCode := none, errorPresent := true }, 1) :=
  ⟨fun _ => rfl, rfl⟩

theorem mkDocumentContent_ok {t : List Char} {c : DocumentContentM}
    (h : mkDocumentContent t = .ok c) : c.rawText ≠ [] := by
  unfold mkDocumentContent at h
  split at h
  · exact absurd h (by simp)
  · next hne =>
      cases h
      intro hnil
      have ht : t = [] := hnil
      rw [ht] at hne
      simp [stripPy, lstripPy, rstripPy] at hne

theorem parseWithTrafilatura_spec (env : HtmlEnv) :
    ((parseWithTrafilatura env).success = true →
      extractedText (parseWithTrafilatura env) ≠ []) ∧
    ((parseWithTrafilatura env).success = false →
      (parseWithTrafilatura env).content = none) := by
  unfold parseWithTrafilatura
  cases env.trafExtract with
  | none => simp [failResult]
  | some extracted =>
      simp only []
      split
      · simp [failResult]
      · cases hmk : mkDocumentContent (cleanTextParser extracted) with
        | error e => simp [failResult]
        | ok c =>
            simp only [okResult, extractedText]
            exact ⟨fun _ => mkDocumentContent_ok hmk, by simp⟩

theorem parseWithBeautifulSoup_spec (env : HtmlEnv) :
    ((parseWithBeautifulSoup env).success = true →
      extractedText (parseWithBeautifulSoup env) ≠ []) ∧
    ((parseWithBeautifulSoup env).success = false →
      (parseWithBeautifulSoup env).content = none) := by
  unfold parseWithBeautifulSoup
  cases hmk : mkDocumentContent (cleanTextParser env.soupText) with
  | error e => simp [failResult]
  | ok c =>
      simp only [okResult, extractedText]
      exact ⟨fun _ => mkDocumentContent_ok hmk, by simp⟩

/-- C5: the HTML extraction cascade (a total function of the
environment: it catches every internal exception, including the
`DocumentContent` validator's `ValueError` on empty text) returns
success=true exactly when the extracted text it carries is non-empty;
on total failure it returns success=false with no content (empty
text). -/
theorem c5_cascade_success_iff_nonempty (env : HtmlEnv) :
    ((htmlParse env).success = true ↔ extractedText (htmlParse env) ≠ []) ∧
    ((htmlParse env).success = false → extractedText (htmlParse env) = []) := by
  have ht := parseWithTrafilatura_spec env
  have hb := parseWithBeautifulSoup_spec env
  have main : (htmlParse env).success = true ↔ extractedText (htmlParse env) ≠ [] := by
    unfold htmlParse
    dsimp only
    split
    · next hcond =>
        rw [Bool.and_eq_true] at hcond
        split
        · split
          · next hbs =>
              rw [Bool.and_eq_true] at hbs
              split
              · exact Iff.intro (fun _ => hb.1 hbs.1) (fun _ => hbs.1)
              · exact Iff.intro (fun _ => ht.1 hcond.1) (fun _ => hcond.1)
          · exact Iff.intro (fun _ => ht.1 hcond.1) (fun _ => hcond.1)
        · exact Iff.intro (fun _ => ht.1 hcond.1) (fun _ => hcond.1)
    · split
      · next hr2 => exact Iff.intro (fun _ => hb.1 hr2) (fun _ => hr2)
      · simp [failResult, extractedText]
  refine ⟨main, ?_⟩
  intro hfalse
  by_contra hne
  have hsucc := main.mpr hne
  rw [hsucc] at hfalse
  simp at hfalse

theorem parseWithPymupdf_content (env : PdfEnv) :
    (parseWithPymupdf env).success = (parseWithPymupdf env).content.isSome := by
  unfold parseWithPymupdf
  cases env.pymupdfText with
  | none => simp [failResult]
  | some t =>
      cases hmk : mkDocumentContent (cleanTextParser t) <;> simp [hmk, failResult, okResult]

theorem parseWithPdfplumber_content (env : PdfEnv) :
    (parseWithPdfplumber env).success = (parseWithPdfplumber env).content.isSome := by
  unfold parseWithPdfplumber
  cases env.pdfplumberText with
  | none => simp [failResult]
  | some t =>
      cases hmk : mkDocumentContent (cleanTextParser t) <;> simp [hmk, failResult, okResult]

theorem pdfParse_lowQuality (env : PdfEnv)
    (hsucc : (parseWithPymupdf env).success = true)
    (hq : calcQualityScore (extractedText (parseWithPymupdf env)) "pdf_text".toList < 1/2) :
    (pdfParse env).2 = true ∧ (pdfParse env).1.success = true ∧
    ((parseWithPdfplumber env).success = true →
      (pdfParse env).1.qualityScore = some (pyMax
        (calcQualityScore (extractedText (parseWithPymupdf env)) "pdf_text".toList)
        (calcQualityScore (extractedText (parseWithPdfplumber env)) "pdf_text".toList))) ∧
    ((parseWithPdfplumber env).success = false →
      (pdfParse env).1.qualityScore =
        some (calcQualityScore (extractedText (parseWithPymupdf env)) "pdf_text".toList)) := by
  have hcs : (parseWithPymupdf env).content.isSome = true := by
    rw [← parseWithPymupdf_content]
    exact hsucc
  unfold pdfParse
  dsimp only
  rw [hsucc, hcs]
  simp only [Bool.and_self, if_true, if_pos hq]
  split
  · next hbs =>
      rw [Bool.and_eq_true] at hbs
      split
      · next hgt =>
          refine ⟨rfl, hbs.1, fun _ => ?_, fun hf => ?_⟩
          · simp only [pyMax, if_pos hgt]
          · rw [hbs.1] at hf
            exact absurd hf (by simp)
      · next hgt =>
          refine ⟨rfl, rfl, fun _ => ?_, fun _ => rfl⟩
          simp only [pyMax, if_neg hgt]
  · next hbs =>
      rw [Bool.and_eq_true] at hbs
      push_neg at hbs
      rw [← parseWithPdfplumber_content] at hbs
      refine ⟨rfl, rfl, fun hps => ?_, fun _ => rfl⟩
      exact absurd hps (hbs hps)

/-- C4 (amended): for PDF input, the PyMuPDF direct-text strategy is
tried first; whenever its quality score is below 0.5 the second
direct-text extractor, pdfplumber — not the OCR strategy — is invoked
and the higher-scoring of the two results is kept; the OCR parser is
never invoked in that case, since the PDF parser returns success. -/
theorem c4_pdf_quality_fallback (env : PdfEnv) (henv : HtmlEnv) (ct ext : List Char)
    (hcan : pdfCanParse ct ext = true)
    (hsucc : (parseWithPymupdf env).success = true)
    (hq : calcQualityScore (extractedText (parseWithPymupdf env)) "pdf_text".toList < 1/2) :
    (parseDocument env henv ct ext).2.pdfplumberInvoked = true ∧
    (parseDocument env henv ct ext).2.ocrInvoked = false ∧
    (parseDocument env henv ct ext).1.success = true ∧
    ((parseWithPdfplumber env).success = true →
      (parseDocument env henv ct ext).1.qualityScore = some (pyMax
        (calcQualityScore (extractedText (parseWithPymupdf env)) "pdf_text".toList)
        (calcQualityScore (extractedText (parseWithPdfplumber env)) "pdf_text".toList))) ∧
    ((parseWithPdfplumber env).success = false →
      (parseDocument env henv ct ext).1.qualityScore =
        some (calcQualityScore (extractedText (parseWithPymupdf env)) "pdf_text".toList)) := by
  have H := pdfParse_lowQuality env hsucc hq
  unfold parseDocument
  dsimp only
  rw [if_pos hcan, if_pos H.2.1]
  exact ⟨H.1, rfl, H.2.1, H.2.2.1, H.2.2.2⟩

/-- The environment of the C4 counterexample: PyMuPDF succeeds with a
short text whose quality score is 0.4, pdfplumber likewise, OCR is
enabled and would succeed. -/
def c4Env : PdfEnv :=
  { pymupdfText := some "short".toList, pdfplumberText := some "tiny".toList,
    ocrText := some "scan".toList, ocrEnabled := true }

/-- An HTML environment with nothing to extract (unused by the PDF
path). -/
def c4HtmlEnv : HtmlEnv := { trafExtract := none, soupText := [] }

/-- C4 counterexample: a PDF whose direct-text quality score is 0.4
(< 0.5) for which the OCR strategy is never invoked — the low-quality
fallback of the code is pdfplumber, a second direct-text extractor, and
the engine stops at the PDF parser because it returned success. -/
theorem c4_ocr_counterexample :
    calcQualityScore (extractedText (parseWithPymupdf c4Env)) "pdf_text".toList < 1/2 ∧
    (parseDocument c4Env c4HtmlEnv "application/pdf".toList "pdf".toList).1.success = true ∧
    (parseDocument c4Env c4HtmlEnv "application/pdf".toList "pdf".toList).2.ocrInvoked
      = false := by
  refine ⟨by with_unfolding_all decide, by with_unfolding_all decide,
    by with_unfolding_all decide⟩

/-- Witness for `c4_pdf_quality_fallback` at the concrete environment
`c4Env` (both extractors score 0.4, so the first — PyMuPDF — is kept). -/
theorem c4_pdf_quality_fallback_witness :
    (parseDocument c4Env c4HtmlEnv "application/pdf".toList "pdf".toList).2.pdfplumberInvoked
        = true ∧
    (parseDocument c4Env c4HtmlEnv "application/pdf".toList "pdf".toList).2.ocrInvoked
        = false ∧
    (parseDocument c4Env c4HtmlEnv "application/pdf".toList "pdf".toList).1.qualityScore
        = some (pyMax
            (calcQualityScore (extractedText (parseWithPymupdf c4Env)) "pdf_text".toList)
            (calcQualityScore (extractedText (parseWithPdfplumber c4Env)) "pdf_text".toList)) := by
  have H := c4_pdf_quality_fallback c4Env c4HtmlEnv "application/pdf".toList "pdf".toList
    (by decide) (by decide) (by with_unfolding_all decide)
  exact ⟨H.1, H.2.1, H.2.2.2.1 (by decide)⟩

/-- The environment of the C3 counterexample and witness: a successful
fetch whose content hash is already recorded under document id "d0". -/
def c3Env : ProcEnv :=
  { fetchSuccess := true, fetchErrorPresent := false,
    dedupHit := some "d0".toList, parseResult := failResult "unused".toList }

/-- C3 counterexample: on a dedup hit the task's status is COMPLETED
(serialised "completed"), not SKIPPED — indeed the `JobStatus` enum of
the source has no SKIPPED member at all. -/
theorem c3_skipped_counterexample :
    (processDocument c3Env).1.status.value = "completed".toList ∧
    (processDocument c3Env).1.status.value ≠ "skipped".toList := by
  exact ⟨rfl, by decide⟩

/-- C3 (amended): when the fetch succeeded and the content hash matches
an already-recorded document, the task terminates with status COMPLETED
and success=true, `artifacts.duplicate_of` equal to the first-seen
document id, and the parsing step is never invoked. -/
theorem c3_duplicate_path (env : ProcEnv) (d : List Char)
    (hfetch : env.fetchSuccess = true) (hdup : env.dedupHit = some d) :
    processDocument env =
      ({ status := .completed, success := true, errorPresent := false,
         artifacts := .duplicateOf d, hasDocumentId := false }, false) := by
  simp [processDocument, hfetch, hdup]

/-- Witness for `c3_duplicate_path` at the concrete environment
`c3Env`. -/
theorem c3_duplicate_path_witness :
    processDocument c3Env =
      ({ status := .completed, success := true, errorPresent := false,
         artifacts := .duplicateOf "d0".toList, hasDocumentId := false }, false) :=
  c3_duplicate_path c3Env "d0".toList rfl rfl

/-- Registry of the C9 counterexample: source id 1 exists and is
active, id 0 is unknown. -/
def c9Lookup : Nat → Option SourceM :=
  fun sid => if sid = 1 then some { isActive := true, tag := 1 } else none

/-- The task the known source of the C9 counterexample produces. -/
def c9Task : TaskResultM :=
  { status := .completed, success := true, errorPresent := false,
    artifacts := .processed "processed".toList, hasDocumentId := true }

/-- `_process_source` outcome for the C9 counterexample. -/
def c9Proc : SourceM → List TaskResultM := fun _ => [c9Task]

/-- C9 counterexample: a job referencing the unknown source id 0
followed by the known id 1 does not fail fast — the loop logs and
continues, the known source's task is scheduled and the job completes. -/
theorem c9_fail_fast_counterexample :
    processJobSources c9Lookup c9Proc [0, 1] = [c9Task] ∧
    jobFinalStatus (processJobSources c9Lookup c9Proc [0, 1]) = JobStatusM.completed := by
  decide

/-- C9 (amended): an unknown source id is logged and skipped —
contributing no task — and the orchestrator silently continues with the
remaining sources (known active sources are processed, inactive ones
skipped). -/
theorem c9_unknown_source_skipped (lookup : Nat → Option SourceM)
    (procSource : SourceM → List TaskResultM) (ids : List Nat) :
    processJobSources lookup procSource ids =
      ids.flatMap (fun sid =>
        match lookup sid with
        | none => []
        | some s => if s.isActive then procSource s else []) := by
  induction ids with
  | nil => rfl
  | cons sid rest ih =>
      simp only [processJobSources, List.flatMap_cons]
      cases lookup sid with
      | none => simpa using ih
      | some s =>
          by_cases hs : s.isActive
          · simp [hs, ih]
          · simp [hs, ih]

/-- C10: with deduplication disabled in settings, `check_duplicate`
returns None regardless of the recorded metadata, so the engine's
duplicate branch is never taken: the document is parsed and persisted
(no `duplicate_of` artifact). -/
theorem c10_dedup_disabled (records : List MetaRec) (h : List Char) (env : ProcEnv)
    (hfetch : env.fetchSuccess = true)
    (hdedup : env.dedupHit = checkDuplicate false records h) :
    checkDuplicate false records h = none ∧
    (processDocument env).2 = true ∧
    ∀ d, (processDocument env).1.artifacts ≠ ArtifactsM.duplicateOf d := by
  have hnone : checkDuplicate false records h = none := by simp [checkDuplicate]
  rw [hnone] at hdedup
  refine ⟨hnone, ?_, ?_⟩
  · simp [processDocument, hfetch, hdedup]
  · intro d
    simp [processDocument, hfetch, hdedup]

/-- Metadata records of the C10 witness: a record with exactly the
looked-up hash already exists for the source. -/
def c10Recs : List MetaRec := [{ fileHash := "h0".toList, docId := "d0".toList }]

/-- Engine environment of the C10 witness (dedup lookup returned
None). -/
def c10Env : ProcEnv :=
  { fetchSuccess := true, fetchErrorPresent := false,
    dedupHit := none, parseResult := failResult "unused2".toList }

/-- Witness for `c10_dedup_disabled`: even though a record with the
exact hash "h0" exists, the disabled dedup check returns None and the
pipeline proceeds to parsing. -/
theorem c10_dedup_disabled_witness :
    checkDuplicate false c10Recs "h0".toList = none ∧
    (processDocument c10Env).2 = true ∧
    (processDocument c10Env).1.artifacts ≠ ArtifactsM.duplicateOf "d0".toList := by
  have H := c10_dedup_disabled c10Recs "h0".toList c10Env rfl (by decide)
  exact ⟨H.1, H.2.1, H.2.2 "d0".toList⟩

theorem joinDotSpace_sentencesOf (l : List Char) :
    joinDotSpace (sentencesOf l) = l := by
  induction l using splitDotSpace.induct with
  | case1 => rfl
  | case2 rest ih =>
      simp only [sentencesOf, splitDotSpace] at ih ⊢
      cases h : (splitDotSpace rest).1 :: (splitDotSpace rest).2 with
      | nil => simp at h
      | cons p ps =>
          simp only [joinDotSpace]
          rw [← h]
          simpa using ih
  | case3 c rest h1 ih =>
      simp only [sentencesOf, splitDotSpace] at ih ⊢
      cases hps : (splitDotSpace rest).2 with
      | nil =>
          simp only [joinDotSpace]
          rw [hps] at ih
          simp only [joinDotSpace] at ih
          simp [ih]
      | cons q qs =>
          simp only [joinDotSpace]
          rw [hps] at ih
          simp only [joinDotSpace] at ih
          simp [ih]

/-- C1 counterexample: on `noisyHighSumText` the obvious-noise override
caps the score at 10, so the returned score (10) is not the clamped
weighted sum (92) the claim specifies for every input text. -/
theorem c1_score_formula_counterexample :
    (analyzeContentQuality noisyHighSumText).qualityScore ≠ claimScoreC1 noisyHighSumText := by
  with_unfolding_all decide

/-- C1 (amended): for every input text on which the obvious-noise
condition does not hold, the quality score equals (compliance-term count
× 15) + (structure-indicator count × 10) + (sentence-terminator-run
count × 1.5) + ((average word length − 3) × 3) − (HTML tag count × 5) −
(HTML entity count × 3) − (navigation-keyword count × 8) −
(site-specific navigation count × 10), clamped to [0, 100]; when it does
hold, the score is additionally capped at 10. -/
theorem c1_score_formula (t : List Char) (h : obviousNoiseCond t = false) :
    (analyzeContentQuality t).qualityScore = claimScoreC1 t := by
  have hsum : qualitySum t = claimSumC1 t := by
    unfold qualitySum claimSumC1
    ring
  simp only [analyzeContentQuality, h, Bool.false_eq_true, if_false, preQualityScore,
    claimScoreC1, hsum]

/-- Witness for `c1_score_formula` at the concrete text
"compliance shall." (score 46.5). -/
theorem c1_score_formula_witness :
    (analyzeContentQuality "compliance shall.".toList).qualityScore =
      claimScoreC1 "compliance shall.".toList :=
  c1_score_formula "compliance shall.".toList (by decide)

/-- C8: the score is capped at 10 exactly when the obvious-noise
condition (tag count > 50, nav-keyword count > 5, site-specific nav
count > 3, `<` count > 20, or a `doctype html` / `svg xmlns` /
`viewport` marker) holds — otherwise it is the uncapped clamped sum —
and `is_likely_content` = (score > 40 and not obvious-noise),
`is_likely_noise` = (score < 20 or obvious-noise). -/
theorem c8_noise_override_and_flags (t : List Char) :
    (obviousNoiseCond t =
      (decide (countTags t > 50) || decide (navScore t > 5) ||
       decide (whNavScore t > 3) || decide (t.count '<' > 20) ||
       containsSub "doctype html".toList (pyToLower t) ||
       containsSub "svg xmlns".toList (pyToLower t) ||
       containsSub "viewport".toList (pyToLower t))) ∧
    (obviousNoiseCond t = true → (analyzeContentQuality t).qualityScore ≤ 10) ∧
    (obviousNoiseCond t = false →
      (analyzeContentQuality t).qualityScore = preQualityScore t) ∧
    (analyzeContentQuality t).isLikelyContent =
      (decide ((analyzeContentQuality t).qualityScore > 40) && !obviousNoiseCond t) ∧
    (analyzeContentQuality t).isLikelyNoise =
      (decide ((analyzeContentQuality t).qualityScore < 20) || obviousNoiseCond t) := by
  refine ⟨rfl, ?_, ?_, rfl, rfl⟩
  · intro h
    simp only [analyzeContentQuality, h, if_true]
    unfold pyMin
    split
    next h2 => exact le_refl _
    next h2 => exact le_of_not_lt h2
  · intro h
    simp [analyzeContentQuality, h]

/-- Witness for `c8_noise_override_and_flags` at the concrete text
"<nav>" (an implication hypothesis instance: the noise condition is
false there and the score equals the uncapped sum). -/
theorem c8_noise_override_witness :
    obviousNoiseCond "<nav>".toList = false ∧
    (analyzeContentQuality "<nav>".toList).qualityScore =
      preQualityScore "<nav>".toList :=
  ⟨by decide, (c8_noise_override_and_flags "<nav>".toList).2.2.1 (by decide)⟩

theorem rstripPy_dot_space (y : List Char) :
    rstripPy (y ++ ['.', ' ']) = y ++ ['.'] := by
  simp [rstripPy, List.dropWhile, pyIsSpace]

theorem stripPy_dot_space (y : List Char) (h : headNotSpace (y ++ ['.', ' '])) :
    stripPy (y ++ ['.', ' ']) = y ++ ['.'] := by
  rw [stripPy, rstripPy_dot_space]
  cases y with
  | nil => simp [lstripPy, List.dropWhile, pyIsSpace]
  | cons c y' =>
      simp only [headNotSpace, List.cons_append] at h
      simp [lstripPy, List.dropWhile, h]

theorem stripPy_dot_space_ne_nil (y : List Char) :
    (stripPy (y ++ ['.', ' '])).isEmpty = false := by
  rw [stripPy, rstripPy_dot_space]
  rw [Bool.eq_false_iff]
  intro hc
  rw [List.isEmpty_iff] at hc
  have : ∀ x ∈ y ++ ['.'], pyIsSpace x := by
    rw [← List.dropWhile_eq_nil_iff]
    exact hc
  have hdot := this '.' (by simp)
  simp [pyIsSpace] at hdot

theorem createChunksLoop_ne_nil (m : Nat) (d : List Char) (ss : List (List Char)) :
    ∀ (y : List Char) (idx : Nat),
      createChunksLoop m d ss (y ++ ['.', ' ']) idx ≠ [] := by
  induction ss with
  | nil =>
      intro y idx
      simp [createChunksLoop, stripPy_dot_space_ne_nil]
  | cons s rest ih =>
      intro y idx
      simp only [createChunksLoop]
      split
      · simp
      · have h2 : (y ++ ['.', ' ']) ++ s ++ '.' :: ' ' :: [] =
            (y ++ ['.', ' '] ++ s) ++ ['.', ' '] := by simp
        rw [h2]
        exact ih _ _

theorem headNotSpace_append_left {u : List Char} (z : List Char)
    (hu : u ≠ []) (h : headNotSpace u) : headNotSpace (u ++ z) := by
  cases u with
  | nil => exact absurd rfl hu
  | cons c u' => exact h

theorem headNotSpace_dot_space (s : List Char) (h : headNotSpace s) :
    headNotSpace (s ++ ['.', ' ']) := by
  cases s with
  | nil => simp [headNotSpace, pyIsSpace]
  | cons c s' => exact h

theorem joinSpace_cons_of_ne_nil (a : List Char) {l : List (List Char)} (h : l ≠ []) :
    joinSpace (a :: l) = a ++ ' ' :: joinSpace l := by
  cases l with
  | nil => exact absurd rfl h
  | cons b t => rfl

theorem createChunksLoop_join (m : Nat) (d : List Char) (ss : List (List Char)) :
    ∀ (y : List Char) (idx : Nat),
      (∀ s ∈ ss, headNotSpace s) → headNotSpace (y ++ ['.', ' ']) →
      joinChunkContents (createChunksLoop m d ss (y ++ ['.', ' ']) idx) =
        y ++ tailGlue ss := by
  induction ss with
  | nil =>
      intro y idx _ hy
      simp only [createChunksLoop, stripPy_dot_space_ne_nil, Bool.false_eq_true, if_false]
      simp [joinChunkContents, createChunk, joinSpace, stripPy_dot_space y hy, tailGlue]
  | cons s rest ih =>
      intro y idx hss hy
      have hs : headNotSpace s := hss s (by simp)
      have hrest : ∀ x ∈ rest, headNotSpace x := fun x hx => hss x (by simp [hx])
      simp only [createChunksLoop]
      split
      · -- chunk boundary: emit the accumulated chunk, restart from `s`
        have hpair : s ++ '.' :: ' ' :: [] = s ++ ['.', ' '] := rfl
        have hne := createChunksLoop_ne_nil m d rest s (idx + 1)
        rw [hpair] at hne ⊢
        have hmapne : (createChunksLoop m d rest (s ++ ['.', ' ']) (idx + 1)).map
            Chunk.content ≠ [] := by
          simpa using hne
        simp only [joinChunkContents, List.map_cons]
        rw [joinSpace_cons_of_ne_nil _ hmapne]
        have hrec := ih s (idx + 1) hrest (headNotSpace_dot_space s hs)
        simp only [joinChunkContents] at hrec
        rw [hrec]
        simp [createChunk, stripPy_dot_space y hy, tailGlue]
      · -- accumulate: the sentence is appended to the current chunk
        have hshape : (y ++ ['.', ' ']) ++ s ++ '.' :: ' ' :: [] =
            (y ++ ['.', ' '] ++ s) ++ ['.', ' '] := by simp
        rw [hshape]
        have hy2 : headNotSpace ((y ++ ['.', ' '] ++ s) ++ ['.', ' ']) := by
          have : (y ++ ['.', ' '] ++ s) ++ ['.', ' '] = (y ++ ['.', ' ']) ++ (s ++ ['.', ' ']) := by
            simp
          rw [this]
          exact headNotSpace_append_left _ (by simp) hy
        rw [ih _ idx hrest hy2]
        simp [tailGlue]

theorem tailGlue_join (ps : List (List Char)) :
    ∀ p : List Char, p ++ tailGlue ps = joinDotSpace (p :: ps) ++ ['.'] := by
  induction ps with
  | nil => intro p; rfl
  | cons s rest ih =>
      intro p
      simp only [tailGlue, joinDotSpace]
      rw [ih s]
      simp

theorem splitDotSpace_fst_head (l : List Char) (h : headNotSpace l) :
    headNotSpace (splitDotSpace l).1 := by
  induction l using splitDotSpace.induct with
  | case1 => trivial
  | case2 rest ih => trivial
  | case3 c rest h1 ih =>
      simp only [splitDotSpace]
      exact h

theorem noTwoSpaces_tail {c : Char} {l : List Char} (h : noTwoSpaces (c :: l)) :
    noTwoSpaces l := h.tail

theorem noTwoSpaces_head {c : Char} {l : List Char} (hc : pyIsSpace c = true)
    (h : noTwoSpaces (c :: l)) : headNotSpace l := by
  cases l with
  | nil => trivial
  | cons d t =>
      rw [noTwoSpaces, List.chain'_cons] at h
      have := h.1
      rw [headNotSpace, Bool.eq_false_iff]
      intro hd
      exact this ⟨hc, hd⟩

theorem splitDotSpace_snd_head (l : List Char) (h : noTwoSpaces l) :
    ∀ p ∈ (splitDotSpace l).2, headNotSpace p := by
  induction l using splitDotSpace.induct with
  | case1 => intro p hp; simp [splitDotSpace] at hp
  | case2 rest ih =>
      intro p hp
      simp only [splitDotSpace] at hp
      have hrest : noTwoSpaces rest := noTwoSpaces_tail (noTwoSpaces_tail h)
      rcases List.mem_cons.mp hp with rfl | hp2
      · exact splitDotSpace_fst_head rest
          (noTwoSpaces_head (by simp [pyIsSpace]) (noTwoSpaces_tail h))
      · exact ih hrest p hp2
  | case3 c rest h1 ih =>
      intro p hp
      simp only [splitDotSpace] at hp
      exact ih (noTwoSpaces_tail h) p hp

theorem pyWordsAux_words (rest : List Char) :
    ∀ cur : List Char, (∀ c ∈ cur, pyIsSpace c = false) →
      ∀ w ∈ pyWordsAux cur rest, w ≠ [] ∧ ∀ c ∈ w, pyIsSpace c = false := by
  induction rest with
  | nil =>
      intro cur hcur w hw
      simp only [pyWordsAux] at hw
      split at hw
      · simp at hw
      · next hne =>
          rw [List.mem_singleton] at hw
          subst hw
          refine ⟨by simpa [List.isEmpty_iff] using hne, ?_⟩
          intro c hc
          exact hcur c (List.mem_reverse.mp hc)
  | cons c rest ih =>
      intro cur hcur w hw
      simp only [pyWordsAux] at hw
      split at hw
      · split at hw
        · exact ih [] (by simp) w hw
        · next hne =>
            rcases List.mem_cons.mp hw with rfl | hw2
            · refine ⟨by simpa [List.isEmpty_iff] using hne, ?_⟩
              intro x hx
              exact hcur x (List.mem_reverse.mp hx)
            · exact ih [] (by simp) w hw2
      · next hcsp =>
          refine ih (c :: cur) ?_ w hw
          intro x hx
          rcases List.mem_cons.mp hx with rfl | hx2
          · exact Bool.eq_false_iff.mpr hcsp
          · exact hcur x hx2

theorem joinSpace_head (c : Char) (w' : List Char) (rest : List (List Char)) :
    headNotSpace (c :: w') → headNotSpace (joinSpace ((c :: w') :: rest)) := by
  intro h
  cases rest <;> exact h

theorem noTwoSpaces_of_no_space (w : List Char) (hw : ∀ c ∈ w, pyIsSpace c = false) :
    noTwoSpaces w := by
  induction w with
  | nil => exact List.chain'_nil
  | cons c t ih =>
      cases t with
      | nil => exact List.chain'_singleton c
      | cons d t' =>
          rw [noTwoSpaces, List.chain'_cons]
          constructor
          · intro hcd
            have := hw c (by simp)
            rw [this] at hcd
            exact Bool.false_ne_true hcd.1
          · exact ih fun x hx => hw x (List.mem_cons_of_mem c hx)

theorem joinSpace_noTwoSpaces (ws : List (List Char))
    (h : ∀ w ∈ ws, w ≠ [] ∧ ∀ c ∈ w, pyIsSpace c = false) :
    noTwoSpaces (joinSpace ws) ∧ headNotSpace (joinSpace ws) := by
  induction ws with
  | nil => exact ⟨List.chain'_nil, trivial⟩
  | cons w rest ih =>
      have hw := h w (by simp)
      have hrest : ∀ x ∈ rest, x ≠ [] ∧ ∀ c ∈ x, pyIsSpace c = false :=
        fun x hx => h x (List.mem_cons_of_mem w hx)
      obtain ⟨hwne, hwsp⟩ := hw
      cases rest with
      | nil =>
          refine ⟨noTwoSpaces_of_no_space w hwsp, ?_⟩
          cases w with
          | nil => trivial
          | cons c w' => exact Bool.eq_false_iff.mpr (fun hc => by
              have := hwsp c (by simp); rw [this] at hc; exact Bool.false_ne_true hc)
      | cons r rest' =>
          have ihr := ih hrest
          have hr := hrest r (by simp)
          constructor
          · show List.Chain' _ (w ++ ' ' :: joinSpace (r :: rest'))
            rw [List.chain'_append]
            refine ⟨noTwoSpaces_of_no_space w hwsp, ?_, ?_⟩
            · rw [List.chain'_cons']
              refine ⟨?_, ihr.1⟩
              intro x hx
              obtain ⟨c, w', hr2⟩ : ∃ c w', r = c :: w' := by
                cases r with
                | nil => exact absurd rfl hr.1
                | cons c w' => exact ⟨c, w', rfl⟩
              subst hr2
              have hhead : (joinSpace ((c :: w') :: rest')).head? = some c := by
                cases rest' <;> rfl
              rw [hhead, Option.mem_some_iff] at hx
              subst hx
              intro hcon
              have := hr.2 c (by simp)
              rw [this] at hcon
              exact Bool.false_ne_true hcon.2
            · intro x hx y hy
              have hxw : x ∈ w := List.mem_of_mem_getLast? hx
              intro hcon
              have := hwsp x hxw
              rw [this] at hcon
              exact Bool.false_ne_true hcon.1
          · cases w with
            | nil => exact absurd rfl hwne
            | cons c w' =>
                show headNotSpace ((c :: w') ++ ' ' :: joinSpace (r :: rest'))
                exact Bool.eq_false_iff.mpr (fun hc => by
                  have := hwsp c (by simp); rw [this] at hc; exact Bool.false_ne_true hc)

theorem cleanText_props (t : List Char) :
    noTwoSpaces (cleanText t) ∧ headNotSpace (cleanText t) :=
  joinSpace_noTwoSpaces (pyWords t) (pyWordsAux_words t [] (by simp))

/-- C7 counterexample: for input "abc" the chunker produces the single
chunk "abc." — concatenating chunk texts appends a period that is not in
the cleaned source text "abc", a difference that is not whitespace (the
two sides differ even after removing all whitespace). -/
theorem c7_concat_counterexample :
    dropSpaces (((processChunks 500 "abc".toList "doc".toList).map Chunk.content).flatten) ≠
      dropSpaces (cleanText "abc".toList) := by
  decide

/-- C7 (amended): for every input text, concatenating the chunk texts in
index order with a single space at each chunk boundary reconstructs the
cleaned (whitespace-normalized) source text with one trailing period
appended (the chunker appends `'. '` to every sentence, including the
last). -/
theorem c7_chunk_concat (m : Nat) (t d : List Char) :
    joinChunkContents (processChunks m t d) = cleanText t ++ ['.'] := by
  have hprops := cleanText_props t
  have hfst := splitDotSpace_fst_head (cleanText t) hprops.2
  have hsnd := splitDotSpace_snd_head (cleanText t) hprops.1
  show joinChunkContents
      (createChunksLoop m d (sentencesOf (cleanText t)) [] 0) = cleanText t ++ ['.']
  have hstep : createChunksLoop m d (sentencesOf (cleanText t)) [] 0 =
      createChunksLoop m d (splitDotSpace (cleanText t)).2
        ((splitDotSpace (cleanText t)).1 ++ ['.', ' ']) 0 := by
    rw [sentencesOf]
    simp [createChunksLoop]
  rw [hstep, createChunksLoop_join m d (splitDotSpace (cleanText t)).2
    (splitDotSpace (cleanText t)).1 0 hsnd (headNotSpace_dot_space _ hfst),
    tailGlue_join]
  rw [show (splitDotSpace (cleanText t)).1 :: (splitDotSpace (cleanText t)).2 =
    sentencesOf (cleanText t) from rfl]
  rw [joinDotSpace_sentencesOf]

theorem createChunksLoop_map_index (m : Nat) (d : List Char) (ss : List (List Char)) :
    ∀ (acc : List Char) (idx : Nat),
      (createChunksLoop m d ss acc idx).map Chunk.chunkIndex =
        List.range' idx (createChunksLoop m d ss acc idx).length := by
  induction ss with
  | nil =>
      intro acc idx
      simp only [createChunksLoop]
      split <;> simp [createChunk]
  | cons s rest ih =>
      intro acc idx
      simp only [createChunksLoop]
      split
      · simp only [List.map_cons, List.length_cons, List.range'_succ, ih]
        simp [createChunk]
      · exact ih _ _

theorem createChunksLoop_map_id (m : Nat) (d : List Char) (ss : List (List Char)) :
    ∀ (acc : List Char) (idx : Nat),
      (createChunksLoop m d ss acc idx).map Chunk.chunkId =
        (createChunksLoop m d ss acc idx).map
          (fun c => d ++ "_chunk_".toList ++ pad3 c.chunkIndex) := by
  induction ss with
  | nil =>
      intro acc idx
      simp only [createChunksLoop]
      split <;> simp [createChunk]
  | cons s rest ih =>
      intro acc idx
      simp only [createChunksLoop]
      split
      · simp only [List.map_cons, ih]
        simp [createChunk]
      · exact ih _ _

/-- C6: for every input and document id, the chunk indices produced by
`_create_chunks` are exactly 0..N−1 in order (no gaps, no duplicates),
and every chunk id is the document id followed by `_chunk_` and the
index left-padded with zeros to 3 digits. -/
theorem c6_chunk_index_and_id (m : Nat) (t d : List Char) :
    (createChunks m t d).map Chunk.chunkIndex = List.range (createChunks m t d).length ∧
    (createChunks m t d).map Chunk.chunkId =
      (createChunks m t d).map (fun c => d ++ "_chunk_".toList ++ pad3 c.chunkIndex) := by
  constructor
  · rw [List.range_eq_range']
    exact createChunksLoop_map_index m d (sentencesOf t) [] 0
  · exact createChunksLoop_map_id m d (sentencesOf t) [] 0

end Compliance

